import Mathlib

/-!
# Verification of the goforensics-core evidentiary ingestion pipeline

A shallow embedding, in Lean 4, of the algorithmic core of the
`goforensics-core` Go repository: the network graph builder
(`pkg/network.go`), the Kafka batch publisher and PST attachment
extraction (`pkg/bookmark.go`), the live IMAP mailbox ingestor
(`pkg/parser_outlook.go`), and the evidence dispatch (`pkg/evidence.go`).

Go strings are modelled as Lean `String`s; where Go performs substring
search or splitting (`strings.Contains`, `strings.Split`) we operate on
the underlying character list with fuel-bounded structural recursion so
that every definition evaluates inside the kernel.  Go `int` is modelled
as `Int` (counts that are provably non-negative use `Nat`); Go maps are
modelled as insertion-ordered association lists (Go's iteration order is
unspecified, the model fixes insertion order and the theorems below do
not depend on that choice).  Fallible collaborator calls (the PST
decoder's field accessors, `mail.ParseAddressList`, the IMAP session,
the Kafka writer, MinIO uploads) are injected as `Option`/`Bool`-valued
parameters, and side effects are reified as explicit event lists.
-/

namespace GoForensics

/-! ## Go string primitives

`goContains sep s` models `strings.Contains(s, sep)` and
`goSplitAux`/`goSplit` model `strings.Split(s, sep)` for a non-empty
separator, over character lists.  The splitter consumes at least one
character per step, so fuel `s.length` is always sufficient. -/

/-- `strings.Contains(s, sep)` on character lists. -/
def goContains (sep : List Char) : List Char → Bool
  | [] => sep.isEmpty
  | c :: rest => sep.isPrefixOf (c :: rest) || goContains sep rest

/-- Fuel-bounded worker for `strings.Split`: returns the first segment and
the list of the remaining segments. -/
def goSplitAux (sep : List Char) : Nat → List Char → List Char × List (List Char)
  | _, [] => ([], [])
  | 0, s => (s, [])
  | fuel + 1, c :: rest =>
    if sep.isPrefixOf (c :: rest) then
      let r := goSplitAux sep fuel (List.drop sep.length (c :: rest))
      ([], r.1 :: r.2)
    else
      let r := goSplitAux sep fuel rest
      (c :: r.1, r.2)

/-- `strings.Split(s, sep)` on character lists (non-empty separator). -/
def goSplit (sep s : List Char) : List (List Char) :=
  (goSplitAux sep s.length s).1 :: (goSplitAux sep s.length s).2

/-- `strings.Contains(s, pat)` on Lean strings. -/
def stringContains (s pat : String) : Bool :=
  goContains pat.toList s.toList

/-- `strings.Split(s, sep)` on Lean strings. -/
def stringSplit (s sep : String) : List String :=
  (goSplit sep.toList s.toList).map List.asString

/-! ## Data model (`pkg/message.go`, `pkg/evidence.go`, attachment file) -/

/-- `Attachment` record (`type Attachment struct` with `UUID`, `Name`). -/
structure Attachment where
  UUID : String
  Name : String
  deriving DecidableEq, Repr

/-- `Message` record (`pkg/message.go`). `Received` is a Go `int` Unix
timestamp, modelled as `Int`. -/
structure Message where
  UUID : String
  UserUUID : String
  ProjectUUID : String
  MessageID : String
  Subject : String
  From : String
  To : String
  CC : String
  Received : Int
  Size : String
  Body : String
  Headers : String
  Attachments : List Attachment
  FolderUUID : String
  EvidenceUUID : String
  deriving DecidableEq, Repr

/-- `messageNullValue` (`pkg/message.go`): the Elasticsearch null sentinel. -/
def messageNullValue : String := "NULL"

/-- `initializeEmptyMessageValues` (`pkg/message.go`): every
whitespace-only string field is replaced by the null sentinel. -/
def initializeEmptyMessageValues (message : Message) : Message :=
  { message with
    MessageID := if message.MessageID.trim = "" then messageNullValue else message.MessageID
    Subject := if message.Subject.trim = "" then messageNullValue else message.Subject
    From := if message.From.trim = "" then messageNullValue else message.From
    To := if message.To.trim = "" then messageNullValue else message.To
    CC := if message.CC.trim = "" then messageNullValue else message.CC
    Size := if message.Size.trim = "" then messageNullValue else message.Size
    Body := if message.Body.trim = "" then messageNullValue else message.Body
    Headers := if message.Headers.trim = "" then messageNullValue else message.Headers }

/-- `Evidence` record (`pkg/evidence.go`). -/
structure Evidence where
  UUID : String
  FileHash : String
  FileName : String
  IsParsed : Bool
  deriving DecidableEq, Repr

/-- `TreeNode` record (`pkg/tree.go`): one folder of the reconstructed
hierarchy. -/
structure TreeNode where
  FolderUUID : String
  ProjectUUID : String
  EvidenceUUID : String
  Title : String
  Parent : String
  deriving DecidableEq, Repr

/-! ## Network graph builder (`pkg/network.go`) -/

/-- `NetworkNode` (`pkg/network.go`): a contact; `Size` is the capped
`sent * received` product (a non-negative count). -/
structure NetworkNode where
  ID : String
  Size : Nat
  deriving DecidableEq, Repr

/-- `NetworkLink` (`pkg/network.go`): a directed source/target pair. -/
structure NetworkLink where
  Source : String
  Target : String
  deriving DecidableEq, Repr

/-- `Network` (`pkg/network.go`). -/
structure Network where
  Nodes : List NetworkNode
  Links : List NetworkLink
  FirstSentMessageDate : Int
  LastSentMessageDate : Int
  deriving DecidableEq, Repr

/-- `containsMessageID` (`pkg/network.go:157`): flag-setting scan of the
collected message IDs. -/
def containsMessageID (messageIDs : List String) (wantedMessageID : String) : Bool :=
  messageIDs.foldl (fun acc messageID => if messageID == wantedMessageID then true else acc) false

/-- `containsLink` (`pkg/network.go:169`): direction-sensitive scan. -/
def containsLink (links : List NetworkLink) (source target : String) : Bool :=
  links.foldl (fun acc link => if link.Source == source && link.Target == target then true else acc) false

/-- `containsNode` (`pkg/network.go:181`). -/
def containsNode (nodes : List NetworkNode) (wantedNode : String) : Bool :=
  nodes.foldl (fun acc node => if node.ID == wantedNode then true else acc) false

/-- `getAddressesFromHeader` (`pkg/network.go:194`), parametrised by the
external `mail.ParseAddressList` collaborator (`parseAddressList`,
returning `none` on a parse error, in which case the function logs and
returns the empty list).  The semicolon branch copies each split segment,
which is the identity on the split. -/
def getAddressesFromHeader (parseAddressList : String → Option (List String))
    (header : String) : List String :=
  if header == messageNullValue then
    []
  else if stringContains header "; " then
    stringSplit header "; "
  else if !(stringContains header "@") then
    [header]
  else
    match parseAddressList header with
    | none => []
    | some addresses => addresses

/-- Go map lookup over an insertion-ordered association list. -/
def mapLookup {α : Type} : List (String × α) → String → Option α
  | [], _ => none
  | (k, v) :: rest, key => if k == key then some v else mapLookup rest key

/-- Go map write over an insertion-ordered association list: replace in
place if present, append otherwise. -/
def mapInsert {α : Type} : List (String × α) → String → α → List (String × α)
  | [], key, value => [(key, value)]
  | (k, v) :: rest, key, value =>
    if k == key then (k, value) :: rest else (k, v) :: mapInsert rest key value

/-- The `sentMap` of `GetNetwork`: address X sent to address Y, Z times. -/
abbrev SentMap := List (String × List (String × Nat))

/-- One `sentMap[fromAddress][toAddress]` increment (`pkg/network.go:82-99`):
start at 1 when absent, add 1 when present. -/
def bumpPair (sentMap : SentMap) (fromAddress toAddress : String) : SentMap :=
  let inner := (mapLookup sentMap fromAddress).getD []
  let inner2 :=
    match mapLookup inner toAddress with
    | none => mapInsert inner toAddress 1
    | some n => mapInsert inner toAddress (n + 1)
  mapInsert sentMap fromAddress inner2

/-- The "Populate the Sent map" block of `GetNetwork`
(`pkg/network.go:74-100`): for every from-address, ensure its entry
exists, then bump each to-address and each cc-address. -/
def tallySentMap (parseAddressList : String → Option (List String))
    (sentMap : SentMap) (message : Message) : SentMap :=
  (getAddressesFromHeader parseAddressList message.From).foldl
    (fun sm fromAddress =>
      let sm1 := if (mapLookup sm fromAddress).isSome then sm else mapInsert sm fromAddress []
      let sm2 := (getAddressesFromHeader parseAddressList message.To).foldl
        (fun sm2 toAddress => bumpPair sm2 fromAddress toAddress) sm1
      (getAddressesFromHeader parseAddressList message.CC).foldl
        (fun sm3 ccAddress => bumpPair sm3 fromAddress ccAddress) sm2)
    sentMap

/-- `if firstSentMessageDate == 0 ... else if received < first ...`
(`pkg/network.go:57-63`). -/
def updateFirstDate (current received : Int) : Int :=
  if current = 0 then received else if received < current then received else current

/-- `if lastSentMessageDate == 0 ... else if received > last ...`
(`pkg/network.go:65-71`). -/
def updateLastDate (current received : Int) : Int :=
  if current = 0 then received else if received > current then received else current

/-- The loop state of `GetNetwork`'s first pass (`pkg/network.go:35-46`). -/
structure TallyState where
  messageIDs : List String
  sentMap : SentMap
  firstSentMessageDate : Int
  lastSentMessageDate : Int
  deriving DecidableEq, Repr

/-- The body of the dedupe branch (`pkg/network.go:52-100`): record the
non-null message ID, update the first/last dates, and tally the sent map. -/
def tallyVisit (parseAddressList : String → Option (List String))
    (st : TallyState) (message : Message) : TallyState :=
  { messageIDs :=
      if message.MessageID != messageNullValue then st.messageIDs ++ [message.MessageID]
      else st.messageIDs
    sentMap := tallySentMap parseAddressList st.sentMap message
    firstSentMessageDate := updateFirstDate st.firstSentMessageDate message.Received
    lastSentMessageDate := updateLastDate st.lastSentMessageDate message.Received }

/-- One iteration of `GetNetwork`'s message loop (`pkg/network.go:48-102`):
visit the message unless its non-null message ID was already seen. -/
def tallyMessage (parseAddressList : String → Option (List String))
    (st : TallyState) (message : Message) : TallyState :=
  if message.MessageID == messageNullValue
      || !(containsMessageID st.messageIDs message.MessageID) then
    tallyVisit parseAddressList st message
  else
    st

/-- `GetNetwork`'s first pass over all messages (`pkg/network.go:48-102`),
starting from Go zero values. -/
def networkTally (parseAddressList : String → Option (List String))
    (allMessages : List Message) : TallyState :=
  allMessages.foldl (tallyMessage parseAddressList) ⟨[], [], 0, 0⟩

/-- Node size (`pkg/network.go:115-119` and `127-131`): the product of
sent and received counts, capped at 30. -/
def networkNodeSize (sentAmount receivedAmount : Nat) : Nat :=
  let nodeSize := sentAmount * receivedAmount
  if nodeSize ≥ 30 then 30 else nodeSize

/-- The body of `GetNetwork`'s second pass for one `(from, to, sent)`
entry (`pkg/network.go:109-146`): when reciprocal traffic exists, add
both endpoints (if absent) and the directed link (if absent). -/
def buildNetworkPair (sentMap : SentMap)
    (acc : List NetworkNode × List NetworkLink)
    (fromAddress toAddress : String) (sentAmount : Nat) :
    List NetworkNode × List NetworkLink :=
  if sentAmount > 0 then
    let receivedAmount := (mapLookup ((mapLookup sentMap toAddress).getD []) fromAddress).getD 0
    if receivedAmount > 0 then
      let nodes := acc.1
      let links := acc.2
      let nodes1 :=
        if !(containsNode nodes toAddress) then
          nodes ++ [{ ID := toAddress, Size := networkNodeSize sentAmount receivedAmount }]
        else nodes
      let nodes2 :=
        if !(containsNode nodes1 fromAddress) then
          nodes1 ++ [{ ID := fromAddress, Size := networkNodeSize sentAmount receivedAmount }]
        else nodes1
      let links1 :=
        if !(containsLink links fromAddress toAddress) then
          links ++ [{ Source := fromAddress, Target := toAddress }]
        else links
      (nodes2, links1)
    else acc
  else acc

/-- `GetNetwork`'s second pass (`pkg/network.go:104-147`), iterating the
sent map in insertion order. -/
def buildNetwork (sentMap : SentMap) : List NetworkNode × List NetworkLink :=
  sentMap.foldl
    (fun acc entry =>
      entry.2.foldl (fun acc2 p => buildNetworkPair sentMap acc2 entry.1 p.1 p.2) acc)
    ([], [])

/-- `GetNetwork` (`pkg/network.go:33-155`), with the database read
`GetAllMessages` replaced by the message list it returns and the
`mail.ParseAddressList` collaborator injected. -/
def GetNetwork (parseAddressList : String → Option (List String))
    (allMessages : List Message) : Network :=
  let st := networkTally parseAddressList allMessages
  let nodesLinks := buildNetwork st.sentMap
  { Nodes := nodesLinks.1
    Links := nodesLinks.2
    FirstSentMessageDate := st.firstSentMessageDate
    LastSentMessageDate := st.lastSentMessageDate }

/-- Following the spec's words (§4.6): the deduplicated message sequence,
keeping every null-ID message and only the first message bearing each
non-null message ID; `seen` is the list of IDs already encountered. -/
def dedupeMessagesSpec : List String → List Message → List Message
  | _, [] => []
  | seen, m :: rest =>
    if m.MessageID == messageNullValue || !(containsMessageID seen m.MessageID) then
      m :: dedupeMessagesSpec
        (if m.MessageID != messageNullValue then seen ++ [m.MessageID] else seen) rest
    else
      dedupeMessagesSpec seen rest

/-! ## Batch publisher (`pkg/bookmark.go:392-414`, `pkg/parser_outlook.go:110-145`)

Both ingestion paths accumulate Kafka messages in a slice, flush it as
one `KafkaWriter.WriteMessages` call once `len >= 100`, clear it, and
flush any non-empty remainder after the loop.  `kafkaBatches buf msgs`
returns the successive publish calls (each one batch) issued for the
traversal `msgs` starting from buffer `buf`; the call sites start from
the empty buffer. -/

/-- The publish calls issued by the Kafka batching loop. -/
def kafkaBatches {α : Type} : List α → List α → List (List α)
  | buf, [] => if buf.length > 0 then [buf] else []
  | buf, m :: rest =>
    if (buf ++ [m]).length ≥ 100 then (buf ++ [m]) :: kafkaBatches [] rest
    else kafkaBatches (buf ++ [m]) rest

/-! ## PST parser (`pkg/bookmark.go`, second file section) -/

/-- The root TreeNode title derivation of `PSTParser.Parse`
(`pkg/bookmark.go:272`): `strings.Split(evidence.FileName, "-")[1]`.
The Go expression panics when index 1 is out of bounds; the model
returns `none` there. -/
def rootTreeNodeTitle (fileName : String) : Option String :=
  (stringSplit fileName "-")[1]?

/-- One PST attachment as seen through the decoder and the collaborators
(`pkg/bookmark.go:352-388`): the `NewUUID()` drawn for it, the
`GetFilename` result (`none` = accessor error), and the success of the
`WriteToFile`, `UploadFile` and `os.Remove` calls. -/
structure PSTAttachmentSource where
  uuid : String
  filename : Option String
  writeOk : Bool
  uploadOk : Bool
  removeOk : Bool
  deriving DecidableEq, Repr

/-- The side effects of the attachment loop, in execution order. -/
inductive AttachmentStep where
  | gotFilename (uuid name : String)
  | wroteTempFile (uuid : String)
  | uploadedFile (uuid : String)
  | removedTempFile (uuid : String)
  deriving DecidableEq, Repr

/-- The attachment loop of `parseSubFolders` (`pkg/bookmark.go:352-388`):
per attachment, get the filename (default `"EMPTY_FILENAME"` on error),
append the `Attachment` record, write the payload to the temp file
(on failure: log and `continue` with the next attachment), upload it
(on failure: return the error), remove the temp file (on failure:
return the error).  Returns the performed steps and either the
accumulated `pstAttachments` slice or the aborting error. -/
def processAttachments : List PSTAttachmentSource →
    List AttachmentStep × Except String (List Attachment)
  | [] => ([], Except.ok [])
  | a :: rest =>
    let name := a.filename.getD "EMPTY_FILENAME"
    let att : Attachment := { UUID := a.uuid, Name := name }
    let evs0 := [AttachmentStep.gotFilename a.uuid name]
    if !a.writeOk then
      let r := processAttachments rest
      (evs0 ++ r.1, r.2.map (fun atts => att :: atts))
    else
      let evs1 := evs0 ++ [AttachmentStep.wroteTempFile a.uuid]
      if !a.uploadOk then
        (evs1, Except.error "failed to upload evidence")
      else
        let evs2 := evs1 ++ [AttachmentStep.uploadedFile a.uuid]
        if !a.removeOk then
          (evs2, Except.error "failed to remove file")
        else
          let evs3 := evs2 ++ [AttachmentStep.removedTempFile a.uuid]
          let r := processAttachments rest
          (evs3 ++ r.1, r.2.map (fun atts => att :: atts))

/-- One PST message as seen through the decoder's independently fallible
field accessors (`pkg/bookmark.go:428-526`); times are carried as their
rendered strings, the received date as its Unix `Int`. -/
structure PSTSourceMessage where
  messageClass : Option String
  appointmentAllAttendees : Option String
  appointmentLocation : Option String
  appointmentStartTime : Option String
  appointmentEndTime : Option String
  contactGivenName : Option String
  contactEmailDisplayName : Option String
  contactCompanyName : Option String
  contactBusinessPhoneNumber : Option String
  contactMobilePhoneNumber : Option String
  bodyHTML : Option String
  body : Option String
  subject : Option String
  fromHeader : Option String
  toHeader : Option String
  ccHeader : Option String
  receivedUnix : Option Int
  headers : Option String
  deriving DecidableEq, Repr

/-- One optional body line: `if field, err := ...; err == nil {
bodyBuilder.Write(fmt.Sprintf("Label: %s\n", field)) }`. -/
def bodyLine (label : String) (field : Option String) : String :=
  match field with
  | some value => label ++ value ++ "\n"
  | none => ""

/-- The `bodyBuilder` of `createMessage` (`pkg/bookmark.go:431-485`):
class-specific synthesized lines (appointment or contact, only when the
class accessor succeeds), then the HTML body, falling back to the plain
body. -/
def buildMessageBody (src : PSTSourceMessage) : String :=
  let classPart :=
    match src.messageClass with
    | some messageClass =>
      if messageClass = "IPM.Appointment" then
        bodyLine "All attendees: " src.appointmentAllAttendees
          ++ bodyLine "Location: " src.appointmentLocation
          ++ bodyLine "Start time: " src.appointmentStartTime
          ++ bodyLine "End time: " src.appointmentEndTime
      else if messageClass = "IPM.Contact" then
        bodyLine "Given name: " src.contactGivenName
          ++ bodyLine "Email display name: " src.contactEmailDisplayName
          ++ bodyLine "Company name: " src.contactCompanyName
          ++ bodyLine "Business phone number: " src.contactBusinessPhoneNumber
          ++ bodyLine "Mobile phone number: " src.contactMobilePhoneNumber
      else ""
    | none => ""
  let bodyPart :=
    match src.bodyHTML with
    | some bodyHTML => "\n" ++ bodyHTML
    | none =>
      match src.body with
      | some body => "\n" ++ body
      | none => ""
  classPart ++ bodyPart

/-- The `Received` normalization of `createMessage`
(`pkg/bookmark.go:503-513`): a successful `GetReceivedDate` is clamped
to 0 when negative (and logged); an accessor error yields 0. -/
def createMessageReceived (receivedUnix : Option Int) : Int :=
  match receivedUnix with
  | some received => if received < 0 then 0 else received
  | none => 0

/-- `createMessage` (`pkg/bookmark.go:428-526`), with `NewUUID()`
injected as `uuid`.  Failed field accessors leave the Go zero value
(the empty string). -/
def createMessage (uuid : String) (project : String) (folderUUID : String)
    (evidenceUUID : String) (attachments : List Attachment)
    (src : PSTSourceMessage) : Message :=
  { UUID := uuid
    UserUUID := ""
    ProjectUUID := project
    MessageID := ""
    Subject := src.subject.getD ""
    From := src.fromHeader.getD ""
    To := src.toHeader.getD ""
    CC := src.ccHeader.getD ""
    Received := createMessageReceived src.receivedUnix
    Size := ""
    Body := buildMessageBody src
    Headers := src.headers.getD ""
    Attachments := attachments
    FolderUUID := folderUUID
    EvidenceUUID := evidenceUUID }

/-! ## Evidence dispatch (`pkg/evidence.go:36-68`) -/

/-- One registered parser (`Parser` interface): its supported extensions
and the effect of running `Parse` on the evidence at hand — the
side-effect log it performs (TreeNode saves, message publishes) and its
error, if any. -/
structure ParserModel where
  supportedFileExtensions : List String
  run : List String × Option String

/-- `filepath.Ext` (Go): the suffix of the final path element beginning
at the final dot; empty when there is none.  Worker over the reversed
character list. -/
def filepathExtAux : List Char → List Char → Option (List Char)
  | _, [] => none
  | acc, c :: rest =>
    if c = '/' then none
    else if c = '.' then some (c :: acc)
    else filepathExtAux (c :: acc) rest

/-- `filepath.Ext` on Lean strings. -/
def filepathExt (path : String) : String :=
  ((filepathExtAux [] path.toList.reverse).getD []).asString

/-- The parser loop of `Evidence.Parse` (`pkg/evidence.go:41-67`):
run every parser whose extension list matches the file's extension,
propagating the first parser error; when none matched, fail with
"failed to find supported parser". -/
def evidenceParseLoop : List ParserModel → Evidence → Bool → List String →
    List String × Option String
  | [], _, foundParser, log =>
    if !foundParser then (log, some "failed to find supported parser") else (log, none)
  | parser :: rest, evidence, foundParser, log =>
    let supportsExtension :=
      parser.supportedFileExtensions.any (fun extension => filepathExt evidence.FileName == extension)
    if supportsExtension then
      match parser.run with
      | (evs, some e) => (log ++ evs, some e)
      | (evs, none) => evidenceParseLoop rest evidence true (log ++ evs)
    else
      evidenceParseLoop rest evidence foundParser log

/-- `Evidence.Parse` (`pkg/evidence.go:36-68`), with the `GetParsers()`
registry injected: returns the performed side-effect log and the error,
if any.  An already-parsed evidence fails immediately. -/
def evidenceParse (parsers : List ParserModel) (evidence : Evidence) :
    List String × Option String :=
  if evidence.IsParsed then
    ([], some "evidence is already parsed")
  else
    evidenceParseLoop parsers evidence false []

/-! ## Live-mailbox ingestor (`pkg/parser_outlook.go`) -/

/-- One IMAP address (`imap.Address`); `address` renders it as Go's
`Address()` method does, `MailboxName + "@" + HostName`. -/
structure IMAPAddress where
  mailboxName : String
  hostName : String
  deriving DecidableEq, Repr

/-- `imap.Address.Address()`. -/
def IMAPAddress.address (a : IMAPAddress) : String :=
  a.mailboxName ++ "@" ++ a.hostName

/-- The loop of `parseAddress` (`pkg/parser_outlook.go:177-189`),
carried with the running index `i`, the total `len(addresses)` and the
string accumulator: append the rendered address, then append `", "`
whenever `i != len(addresses)`. -/
def parseAddressLoop (total : Nat) : Nat → String → List IMAPAddress → String
  | _, acc, [] => acc
  | i, acc, a :: rest =>
    parseAddressLoop total (i + 1)
      (if i != total then acc ++ a.address ++ ", " else acc ++ a.address) rest

/-- `parseAddress` (`pkg/parser_outlook.go:177-189`). -/
def parseAddress (addresses : List IMAPAddress) : String :=
  parseAddressLoop addresses.length 0 "" addresses

/-- One IMAP envelope (`imap.Message.Envelope`); `dateUnix` is
`Envelope.Date.Unix()` as a Go `int`. -/
structure IMAPEnvelope where
  messageId : String
  subject : String
  fromAddresses : List IMAPAddress
  toAddresses : List IMAPAddress
  ccAddresses : List IMAPAddress
  dateUnix : Int
  deriving DecidableEq, Repr

/-- `parseIMAPMessage` (`pkg/parser_outlook.go:164-175`), with
`NewUUID()` injected as `uuid`.  Note there is no clamping of the
received date here: the envelope's Unix timestamp is stored as-is. -/
def parseIMAPMessage (uuid : String) (projectUUID : String)
    (envelope : IMAPEnvelope) : Message :=
  { UUID := uuid
    UserUUID := ""
    ProjectUUID := projectUUID
    MessageID := envelope.messageId
    Subject := envelope.subject
    From := parseAddress envelope.fromAddresses
    To := parseAddress envelope.toAddresses
    CC := parseAddress envelope.ccAddresses
    Received := envelope.dateUnix
    Size := ""
    Body := ""
    Headers := ""
    Attachments := []
    FolderUUID := ""
    EvidenceUUID := "" }

/-- Result of `outlookClient.Select(mailboxName, true)`
(`pkg/parser_outlook.go:59`): the mailbox message count on success, the
distinguished "imap: connection closed" error, or any other error. -/
inductive SelectResult where
  | ok (mboxMessages : Nat)
  | connClosed
  | fail (e : String)
  deriving DecidableEq, Repr

/-- Result of awaiting the `Fetch` goroutine (`pkg/parser_outlook.go:147`):
success, the distinguished "The specified message set is invalid." error,
or any other error. -/
inductive FetchDone where
  | ok
  | invalidSet
  | fail (e : String)
  deriving DecidableEq, Repr

/-- One authenticated IMAP session, as the collaborator behind
`outlookClient`: the select outcome per mailbox name, the envelopes
streamed by `Fetch` (identified by their payload keys), the fetch
completion outcome, and whether `Logout` succeeds. -/
structure IMAPSession where
  select : String → SelectResult
  fetchMsgs : String → List String
  fetchDone : String → FetchDone
  logoutOk : Bool

/-- The observable side effects of `parseMailboxes`, in order: Kafka
batch publishes, progress-channel sends (the full-batch send records the
`totalSentMessages` and `mbox.Messages` fed into the float percentage,
which is not modelled; the remainder flush sends the literal 100),
the reconnect recursion (with the mailbox list it receives), the
progress-channel close and the logout. -/
inductive MailboxEvent where
  | published (batch : List String)
  | progressSent (totalSentMessages mboxMessages : Nat)
  | progressFinal
  | reconnected (wanted : List String)
  | channelClosed
  | loggedOut
  deriving DecidableEq, Repr

/-- The inner flag loop over `parsedMailboxes`
(`pkg/parser_outlook.go:74-80`). -/
def containsMailbox (parsedMailboxes : List String) (mailboxName : String) : Bool :=
  parsedMailboxes.foldl (fun acc parsedMailbox => if mailboxName == parsedMailbox then true else acc) false

/-- The streaming loop over fetched messages
(`pkg/parser_outlook.go:114-135`): batch per 100 with a progress send
after each flushed batch; `none` models a failed `WriteMessages` call
(which aborts the ingestion).  Returns the events, the remaining buffer
and the final `totalSentMessages`. -/
def streamLoop (write : List String → Bool) (mboxMessages : Nat) :
    List String → Nat → List String →
    Option (List MailboxEvent × List String × Nat)
  | buf, totalSent, [] => some ([], buf, totalSent)
  | buf, totalSent, m :: rest =>
    let buf2 := buf ++ [m]
    if buf2.length ≥ 100 then
      let totalSent2 := totalSent + buf2.length
      if write buf2 then
        match streamLoop write mboxMessages [] totalSent2 rest with
        | some (evs, bufEnd, totalEnd) =>
          some (MailboxEvent.published buf2 :: MailboxEvent.progressSent totalSent2 mboxMessages :: evs,
            bufEnd, totalEnd)
        | none => none
      else none
    else
      streamLoop write mboxMessages buf2 totalSent rest

/-- `parseMailboxes` (`pkg/parser_outlook.go:53-162`), fuel-bounded.
`write` is the shared `KafkaWriter`; `reauths` yields the sessions that
successive `authenticateOutlookIMAP` reconnect calls produce (empty =
re-authentication fails); `allNames` is the `mailboxNames` argument of
the current invocation, `remaining` the part of it not yet iterated and
`parsed` the local `parsedMailboxes` accumulator.  On a "connection
closed" select error the unvisited subset is computed from `allNames`
minus `parsed` and handed to a recursive invocation whose result ends
the current level (`pkg/parser_outlook.go:62-94`). -/
def parseMailboxes (write : List String → Bool) :
    Nat → IMAPSession → List IMAPSession → List String → List String → List String →
    Except String (List MailboxEvent)
  | 0, _, _, _, _, _ => Except.error "out of fuel"
  | fuel + 1, session, reauths, allNames, remaining, parsed =>
    match remaining with
    | [] =>
      if session.logoutOk then Except.ok [MailboxEvent.channelClosed, MailboxEvent.loggedOut]
      else Except.error "logout failed"
    | mailboxName :: rest =>
      match session.select mailboxName with
      | SelectResult.fail e => Except.error e
      | SelectResult.connClosed =>
        match reauths with
        | [] => Except.error "authentication failed"
        | session2 :: reauthsRest =>
          let wantedMailboxes := allNames.filter (fun n => !(containsMailbox parsed n))
          match parseMailboxes write fuel session2 reauthsRest wantedMailboxes wantedMailboxes [] with
          | Except.ok evs => Except.ok (MailboxEvent.reconnected wantedMailboxes :: evs)
          | Except.error e => Except.error e
      | SelectResult.ok mboxMessages =>
        match streamLoop write mboxMessages [] 0 (session.fetchMsgs mailboxName) with
        | none => Except.error "failed to write messages"
        | some (evs, buf, _) =>
          let flushed : Option (List MailboxEvent) :=
            if buf.length > 0 then
              if write buf then some (evs ++ [MailboxEvent.published buf, MailboxEvent.progressFinal])
              else none
            else some evs
          match flushed with
          | none => Except.error "failed to write messages"
          | some evs2 =>
            match session.fetchDone mailboxName with
            | FetchDone.fail e => Except.error e
            | FetchDone.invalidSet =>
              match parseMailboxes write fuel session reauths allNames rest (parsed ++ [mailboxName]) with
              | Except.ok evsRest => Except.ok (evs2 ++ evsRest)
              | Except.error e => Except.error e
            | FetchDone.ok =>
              match parseMailboxes write fuel session reauths allNames rest (parsed ++ [mailboxName]) with
              | Except.ok evsRest => Except.ok (evs2 ++ evsRest)
              | Except.error e => Except.error e

/-! ## Concrete fixtures used by the claim theorems -/

/-- A `mail.ParseAddressList` collaborator that always fails (never
consulted by the fixtures below, whose headers contain no "@"). -/
def parseAddressListNone : String → Option (List String) := fun _ => none

/-- A `mail.ParseAddressList` collaborator returning a fixed single
address. -/
def parseAddressListConst : String → Option (List String) := fun _ => some ["x@y"]

/-- An indexed message as `GetNetwork` reads it back: only the fields the
network builder consults are populated; the empty fields carry the null
sentinel, as `initializeEmptyMessageValues` guarantees post-publication. -/
def mkNetMessage (id fromHeader toHeader : String) (received : Int) : Message :=
  { UUID := id, UserUUID := "NULL", ProjectUUID := "p", MessageID := id,
    Subject := "NULL", From := fromHeader, To := toHeader, CC := "NULL",
    Received := received, Size := "NULL", Body := "NULL", Headers := "NULL",
    Attachments := [], FolderUUID := "f", EvidenceUUID := "e" }

/-- Three messages alice→bob, no reciprocal traffic (distinct non-null
message IDs). -/
def c1MessagesOneWay : List Message :=
  [mkNetMessage "id1" "alice" "bob" 10,
   mkNetMessage "id2" "alice" "bob" 20,
   mkNetMessage "id3" "alice" "bob" 30]

/-- Three messages alice→bob and two bob→alice (distinct non-null
message IDs). -/
def c1MessagesReciprocal : List Message :=
  c1MessagesOneWay ++
  [mkNetMessage "id4" "bob" "alice" 40,
   mkNetMessage "id5" "bob" "alice" 50]

/-- The first session of the reconnect scenario: selecting "X" succeeds
(two envelopes), selecting "Y" raises "imap: connection closed".
`logoutOk := false` would make any logout attempt on this session fail,
witnessing that teardown is owned by the recursive retry invocation. -/
def c4Session1 : IMAPSession where
  select := fun name =>
    if name = "X" then SelectResult.ok 2
    else if name = "Y" then SelectResult.connClosed
    else SelectResult.fail "unexpected select"
  fetchMsgs := fun name => if name = "X" then ["x1", "x2"] else []
  fetchDone := fun _ => FetchDone.ok
  logoutOk := false

/-- The session produced by the reconnect's `authenticateOutlookIMAP`:
"Y" (one envelope) and "Z" (empty) now select fine. -/
def c4Session2 : IMAPSession where
  select := fun name =>
    if name = "Y" then SelectResult.ok 1
    else if name = "Z" then SelectResult.ok 0
    else SelectResult.fail "unexpected select"
  fetchMsgs := fun name => if name = "Y" then ["y1"] else []
  fetchDone := fun _ => FetchDone.ok
  logoutOk := true

/-- The event trace of the reconnect scenario: X's batch published once,
then the reconnect restricted to ["Y", "Z"], then Y's batch, then the
teardown performed by the recursive invocation. -/
def c4Trace : List MailboxEvent :=
  [MailboxEvent.published ["x1", "x2"], MailboxEvent.progressFinal,
   MailboxEvent.reconnected ["Y", "Z"],
   MailboxEvent.published ["y1"], MailboxEvent.progressFinal,
   MailboxEvent.channelClosed, MailboxEvent.loggedOut]

/-! ## Theorems -/

/-- C1, counterexample: with three alice→bob messages and two bob→alice
messages, `GetNetwork` emits a directed link for each direction of the
reciprocal pair — two `NetworkLink`s, not the single link the claim
states (`containsLink` is direction-sensitive, so the second pass
appends both (alice, bob) and (bob, alice)). -/
theorem c1_reciprocal_two_links_counterexample :
    (GetNetwork parseAddressListNone c1MessagesReciprocal).Links
        = [{ Source := "alice", Target := "bob" }, { Source := "bob", Target := "alice" }]
      ∧ (GetNetwork parseAddressListNone c1MessagesReciprocal).Links.length ≠ 1 := by
  decide

/-- C1, amended: a pair with 3 sent and 0 received produces no
`NetworkNode` and no `NetworkLink` at all; a pair with 3 sent and 2
received produces exactly two `NetworkNode`s, each of size
`min(30, 3*2) = 6`, and exactly two `NetworkLink`s, one per direction. -/
theorem c1_network_amended :
    ((GetNetwork parseAddressListNone c1MessagesOneWay).Nodes = []
      ∧ (GetNetwork parseAddressListNone c1MessagesOneWay).Links = [])
    ∧ ((GetNetwork parseAddressListNone c1MessagesReciprocal).Nodes
        = [{ ID := "bob", Size := 6 }, { ID := "alice", Size := 6 }]
      ∧ (GetNetwork parseAddressListNone c1MessagesReciprocal).Links
        = [{ Source := "alice", Target := "bob" }, { Source := "bob", Target := "alice" }]) := by
  decide

/-- C4: with mailbox list [X, Y, Z], where X completes and selecting Y
raises "imap: connection closed", the traversal publishes X's batch once,
re-authenticates, hands exactly [Y, Z] (the input list minus the
already-parsed X) to the recursive retry invocation, which publishes Y's
batch and finishes the run; X's batch appears exactly once in the whole
event trace. -/
theorem c4_reconnect_unvisited :
    parseMailboxes (fun _ => true) 10 c4Session1 [c4Session2]
        ["X", "Y", "Z"] ["X", "Y", "Z"] [] = Except.ok c4Trace
      ∧ c4Trace.count (MailboxEvent.reconnected ["Y", "Z"]) = 1
      ∧ c4Trace.count (MailboxEvent.published ["x1", "x2"]) = 1 :=
  ⟨rfl, by decide, by decide⟩

/-- C3, counterexample: `parseIMAPMessage` stores the envelope's Unix
timestamp unclamped, so a pre-epoch envelope date yields a negative
`Received` on the live-mailbox path. -/
theorem c3_imap_negative_received_counterexample :
    (parseIMAPMessage "uuid-1" "project-1"
        { messageId := "mid", subject := "s", fromAddresses := [],
          toAddresses := [], ccAddresses := [], dateUnix := -1 }).Received = -1
      ∧ (parseIMAPMessage "uuid-1" "project-1"
        { messageId := "mid", subject := "s", fromAddresses := [],
          toAddresses := [], ccAddresses := [], dateUnix := -1 }).Received < 0 := by
  decide

/-- C3, amended: on the PST path, `createMessage` always yields
`Received ≥ 0` (a negative or missing source timestamp is clamped to 0);
on the live-mailbox path, `parseIMAPMessage` performs no clamping and
stores the envelope timestamp verbatim, so a pre-epoch date survives as
a negative `Received`. -/
theorem c3_received_amended :
    (∀ (uuid project folderUUID evidenceUUID : String)
        (attachments : List Attachment) (src : PSTSourceMessage),
        0 ≤ (createMessage uuid project folderUUID evidenceUUID attachments src).Received)
      ∧ (∀ (uuid projectUUID : String) (envelope : IMAPEnvelope),
          (parseIMAPMessage uuid projectUUID envelope).Received = envelope.dateUnix) := by
  constructor
  · intro uuid project folderUUID evidenceUUID attachments src
    show 0 ≤ createMessageReceived src.receivedUnix
    unfold createMessageReceived
    cases src.receivedUnix with
    | none => simp
    | some received =>
      dsimp only
      split
      · simp
      · omega
  · intro uuid projectUUID envelope
    rfl

/-- C7: `Evidence.Parse` on an already-parsed evidence fails immediately
with "evidence is already parsed" and performs no side effects: no
parser runs, so no TreeNode is persisted and no message is published. -/
theorem c7_parsed_evidence_no_side_effects
    (parsers : List ParserModel) (evidence : Evidence)
    (h : evidence.IsParsed = true) :
    evidenceParse parsers evidence = ([], some "evidence is already parsed") := by
  unfold evidenceParse
  simp [h]

/-- Witness for C7 at a concrete already-parsed evidence and a
registered PST parser whose run would log a side effect. -/
theorem c7_parsed_evidence_no_side_effects_witness :
    evidenceParse [⟨[".pst"], (["saved tree node"], none)⟩]
        ⟨"uuid-1", "hash-1", "a.pst", true⟩
      = ([], some "evidence is already parsed") :=
  c7_parsed_evidence_no_side_effects _ _ rfl

/-- C5, counterexample: an attachment whose `WriteToFile` fails is
logged and skipped (`continue`), not returned as an error — the result
is `Except.ok`, the attachment record is still kept, and neither the
upload nor the removal step runs. -/
theorem c5_write_failure_counterexample :
    processAttachments [⟨"uuid-1", some "file.txt", false, true, true⟩]
      = ([AttachmentStep.gotFilename "uuid-1" "file.txt"],
         Except.ok [{ UUID := "uuid-1", Name := "file.txt" }]) :=
  rfl

/-- C5, amended: for each attachment the four steps run in the order
filename, write, upload, remove; an upload failure (and likewise a
temp-file removal failure) aborts by returning an error to the caller;
a write failure does not abort — it is logged, the attachment's upload
and removal are skipped, and processing continues with the remaining
attachments, the attachment record staying in the message. -/
theorem c5_attachment_steps_amended
    (a : PSTAttachmentSource) (rest : List PSTAttachmentSource) :
    (a.writeOk = true → a.uploadOk = true → a.removeOk = true →
      processAttachments (a :: rest)
        = ([AttachmentStep.gotFilename a.uuid (a.filename.getD "EMPTY_FILENAME"),
            AttachmentStep.wroteTempFile a.uuid,
            AttachmentStep.uploadedFile a.uuid,
            AttachmentStep.removedTempFile a.uuid] ++ (processAttachments rest).1,
           (processAttachments rest).2.map
             (fun atts => { UUID := a.uuid, Name := a.filename.getD "EMPTY_FILENAME" } :: atts)))
    ∧ (a.writeOk = true → a.uploadOk = false →
      processAttachments (a :: rest)
        = ([AttachmentStep.gotFilename a.uuid (a.filename.getD "EMPTY_FILENAME"),
            AttachmentStep.wroteTempFile a.uuid],
           Except.error "failed to upload evidence"))
    ∧ (a.writeOk = false →
      processAttachments (a :: rest)
        = (AttachmentStep.gotFilename a.uuid (a.filename.getD "EMPTY_FILENAME")
             :: (processAttachments rest).1,
           (processAttachments rest).2.map
             (fun atts => { UUID := a.uuid, Name := a.filename.getD "EMPTY_FILENAME" } :: atts))) := by
  refine ⟨fun h1 h2 h3 => ?_, fun h1 h2 => ?_, fun h1 => ?_⟩
  · simp [processAttachments, h1, h2, h3]
  · simp [processAttachments, h1, h2]
  · simp [processAttachments, h1]

/-- Witness for C5's amended theorem: the three branches at concrete
attachments (all steps succeed; upload fails; write fails). -/
theorem c5_attachment_steps_amended_witness :
    processAttachments [⟨"u1", some "n1", true, true, true⟩]
        = ([AttachmentStep.gotFilename "u1" "n1", AttachmentStep.wroteTempFile "u1",
            AttachmentStep.uploadedFile "u1", AttachmentStep.removedTempFile "u1"],
           Except.ok [{ UUID := "u1", Name := "n1" }])
      ∧ processAttachments [⟨"u2", none, true, false, true⟩]
        = ([AttachmentStep.gotFilename "u2" "EMPTY_FILENAME", AttachmentStep.wroteTempFile "u2"],
           Except.error "failed to upload evidence")
      ∧ processAttachments [⟨"u3", none, false, true, true⟩]
        = ([AttachmentStep.gotFilename "u3" "EMPTY_FILENAME"],
           Except.ok [{ UUID := "u3", Name := "EMPTY_FILENAME" }]) := by
  refine ⟨?_, ?_, ?_⟩
  · have h := (c5_attachment_steps_amended ⟨"u1", some "n1", true, true, true⟩ []).1 rfl rfl rfl
    simpa using h
  · have h := (c5_attachment_steps_amended ⟨"u2", none, true, false, true⟩ []).2.1 rfl rfl
    simpa using h
  · have h := (c5_attachment_steps_amended ⟨"u3", none, false, true, true⟩ []).2.2 rfl
    simpa using h

/-- When the buffer plus the remaining traversal stay below the
threshold, the batching loop issues at most one final flush, holding
everything in traversal order. -/
theorem kafkaBatches_small {α : Type} :
    ∀ (l buf : List α), buf.length + l.length < 100 →
      kafkaBatches buf l = if buf.length + l.length = 0 then [] else [buf ++ l] := by
  intro l
  induction l with
  | nil =>
    intro buf h
    by_cases hb : buf.length = 0
    · have : buf = [] := List.length_eq_zero.mp hb
      subst this
      simp [kafkaBatches]
    · simp [kafkaBatches, Nat.pos_of_ne_zero hb, hb]
  | cons m rest ih =>
    intro buf h
    have hcond : ¬ ((buf ++ [m]).length ≥ 100) := by
      simp only [List.length_append, List.length_cons, List.length_nil]
      simp only [List.length_cons] at h
      omega
    have hrec : (buf ++ [m]).length + rest.length < 100 := by
      simp only [List.length_append, List.length_cons, List.length_nil]
      simp only [List.length_cons] at h
      omega
    simp only [kafkaBatches, if_neg hcond]
    rw [ih (buf ++ [m]) hrec]
    have hne1 : ¬ ((buf ++ [m]).length + rest.length = 0) := by
      simp [List.length_append]
    have hne2 : ¬ (buf.length + (m :: rest).length = 0) := by
      simp
    rw [if_neg hne1, if_neg hne2]
    simp [List.append_assoc]

/-- Once the running buffer (strictly below the threshold) plus the rest
of the traversal reach the threshold, the loop flushes exactly the first
100 accumulated messages as one publish call and restarts empty on the
remainder. -/
theorem kafkaBatches_ge {α : Type} :
    ∀ (l buf : List α), buf.length < 100 → 100 ≤ buf.length + l.length →
      kafkaBatches buf l
        = (buf ++ l.take (100 - buf.length)) :: kafkaBatches [] (l.drop (100 - buf.length)) := by
  intro l
  induction l with
  | nil =>
    intro buf h1 h2
    simp only [List.length_nil, Nat.add_zero] at h2
    omega
  | cons m rest ih =>
    intro buf h1 h2
    by_cases hc : (buf ++ [m]).length ≥ 100
    · have h99 : buf.length = 99 := by
        simp only [List.length_append, List.length_cons, List.length_nil] at hc
        omega
      simp only [kafkaBatches, if_pos hc, h99]
      norm_num
    · have hlt : (buf ++ [m]).length < 100 := by omega
      have hge : 100 ≤ (buf ++ [m]).length + rest.length := by
        simp only [List.length_append, List.length_cons, List.length_nil]
        simp only [List.length_cons] at h2
        omega
      simp only [kafkaBatches, if_neg hc]
      rw [ih (buf ++ [m]) hlt hge]
      have hk : 100 - buf.length = (100 - (buf ++ [m]).length) + 1 := by
        simp only [List.length_append, List.length_cons, List.length_nil]
        omega
      rw [hk]
      simp only [List.length_append, List.length_cons, List.length_nil,
        List.take_succ_cons, List.drop_succ_cons]
      simp [List.append_assoc]

/-- C2: every traversal of exactly 250 messages is flushed as exactly
three publish calls of sizes 100, 100 and 50, whose concatenation is the
original traversal (so every batch holds its messages in traversal
order). -/
theorem c2_batch_publisher {α : Type} (msgs : List α) (h : msgs.length = 250) :
    (kafkaBatches [] msgs).map List.length = [100, 100, 50]
      ∧ (kafkaBatches [] msgs).flatten = msgs := by
  have hd1 : (msgs.drop 100).length = 150 := by
    simp only [List.length_drop, h]
  have hd2 : ((msgs.drop 100).drop 100).length = 50 := by
    simp only [List.length_drop, hd1]
  have h1 : kafkaBatches ([] : List α) msgs
      = msgs.take 100 :: kafkaBatches [] (msgs.drop 100) := by
    have hstep := kafkaBatches_ge msgs [] (by simp) (by simp [h])
    simpa using hstep
  have h2 : kafkaBatches ([] : List α) (msgs.drop 100)
      = (msgs.drop 100).take 100 :: kafkaBatches [] ((msgs.drop 100).drop 100) := by
    have hstep := kafkaBatches_ge (msgs.drop 100) [] (by simp) (by simp [hd1])
    simpa using hstep
  have h3 : kafkaBatches ([] : List α) ((msgs.drop 100).drop 100)
      = [(msgs.drop 100).drop 100] := by
    have hstep := kafkaBatches_small ((msgs.drop 100).drop 100) []
      (by simp only [List.length_nil, Nat.zero_add, hd2]; omega)
    rw [hstep, if_neg (by simp only [List.length_nil, Nat.zero_add, hd2]; omega)]
    simp
  rw [h1, h2, h3]
  refine ⟨?_, ?_⟩
  · simp only [List.map_cons, List.map_nil, hd2, List.length_take, List.length_drop, h]
    norm_num
  · simp only [List.flatten_cons, List.flatten_nil, List.append_nil]
    rw [List.take_append_drop, List.take_append_drop]

/-- Witness for C2 at a concrete 250-message traversal. -/
theorem c2_batch_publisher_witness :
    (kafkaBatches [] (List.replicate 250 (0 : Nat))).map List.length = [100, 100, 50]
      ∧ (kafkaBatches [] (List.replicate 250 (0 : Nat))).flatten = List.replicate 250 0 :=
  c2_batch_publisher (List.replicate 250 0) (by rw [List.length_replicate])

/-- The visit body records exactly the non-null message IDs, appended in
order. -/
theorem tallyVisit_messageIDs (pf : String → Option (List String))
    (st : TallyState) (m : Message) :
    (tallyVisit pf st m).messageIDs
      = if m.MessageID != messageNullValue then st.messageIDs ++ [m.MessageID]
        else st.messageIDs :=
  rfl

/-- The fused dedupe-and-tally loop of `GetNetwork` computes the same
state as first deduplicating the message list (spec §4.6) and then
tallying every surviving message unconditionally. -/
theorem foldl_tallyMessage_eq_dedupe (pf : String → Option (List String)) :
    ∀ (msgs : List Message) (st : TallyState),
      msgs.foldl (tallyMessage pf) st
        = (dedupeMessagesSpec st.messageIDs msgs).foldl (tallyVisit pf) st := by
  intro msgs
  induction msgs with
  | nil => intro st; rfl
  | cons m rest ih =>
    intro st
    simp only [List.foldl_cons, dedupeMessagesSpec]
    by_cases h : (m.MessageID == messageNullValue
        || !(containsMessageID st.messageIDs m.MessageID)) = true
    · rw [if_pos h]
      simp only [List.foldl_cons]
      rw [show tallyMessage pf st m = tallyVisit pf st m from by
        unfold tallyMessage; rw [if_pos h]]
      rw [ih (tallyVisit pf st m), tallyVisit_messageIDs]
    · rw [if_neg h]
      rw [show tallyMessage pf st m = st from by
        unfold tallyMessage; rw [if_neg h]]
      exact ih st

/-- C6: `GetNetwork`'s first pass counts every distinct non-null message
ID exactly once — its tally equals the tally of the deduplicated message
sequence, which keeps only the first message bearing each non-null
message ID — while every null-ID message survives deduplication and is
therefore counted individually. -/
theorem c6_dedupe_tally (pf : String → Option (List String))
    (allMessages : List Message) :
    networkTally pf allMessages
      = (dedupeMessagesSpec [] allMessages).foldl (tallyVisit pf) ⟨[], [], 0, 0⟩ :=
  foldl_tallyMessage_eq_dedupe pf allMessages ⟨[], [], 0, 0⟩

/-- C8: `getAddressesFromHeader` tries the three shapes in order — the
semicolon-delimited split first (even when an "@" is present), the single
bare token without "@" second, the structured address-list parse last —
and a structured-parse failure yields the empty address set rather than
an error, while the null sentinel yields the empty set immediately. -/
theorem c8_address_header_shapes
    (parseAddressList : String → Option (List String)) (header : String) :
    (header = messageNullValue →
        getAddressesFromHeader parseAddressList header = [])
    ∧ (header ≠ messageNullValue → stringContains header "; " = true →
        getAddressesFromHeader parseAddressList header = stringSplit header "; ")
    ∧ (header ≠ messageNullValue → stringContains header "; " = false →
        stringContains header "@" = false →
        getAddressesFromHeader parseAddressList header = [header])
    ∧ (header ≠ messageNullValue → stringContains header "; " = false →
        stringContains header "@" = true → parseAddressList header = none →
        getAddressesFromHeader parseAddressList header = [])
    ∧ (∀ addresses, header ≠ messageNullValue → stringContains header "; " = false →
        stringContains header "@" = true → parseAddressList header = some addresses →
        getAddressesFromHeader parseAddressList header = addresses) := by
  refine ⟨fun h1 => ?_, fun h1 h2 => ?_, fun h1 h2 h3 => ?_,
    fun h1 h2 h3 h4 => ?_, fun addresses h1 h2 h3 h4 => ?_⟩
  all_goals simp [getAddressesFromHeader, *]

/-- Witness for C8: the four shapes at concrete headers, and a
successful structured parse. -/
theorem c8_address_header_shapes_witness :
    getAddressesFromHeader parseAddressListNone "NULL" = []
    ∧ getAddressesFromHeader parseAddressListNone "a; b" = ["a", "b"]
    ∧ getAddressesFromHeader parseAddressListNone "alice" = ["alice"]
    ∧ getAddressesFromHeader parseAddressListNone "a@b" = []
    ∧ getAddressesFromHeader parseAddressListConst "a@b" = ["x@y"] :=
  ⟨(c8_address_header_shapes parseAddressListNone "NULL").1 rfl,
    ((c8_address_header_shapes parseAddressListNone "a; b").2.1
      (by decide) (by decide)).trans (by decide),
    (c8_address_header_shapes parseAddressListNone "alice").2.2.1
      (by decide) (by decide) (by decide),
    (c8_address_header_shapes parseAddressListNone "a@b").2.2.2.1
      (by decide) (by decide) (by decide) rfl,
    (c8_address_header_shapes parseAddressListConst "a@b").2.2.2.2
      ["x@y"] (by decide) (by decide) (by decide) rfl⟩

/-- The splitter produces trailing segments exactly when the separator
character occurs in the input (stated for the "-" separator, with enough
fuel). -/
theorem goSplitAux_dash_snd_eq_nil :
    ∀ (fuel : Nat) (s : List Char), s.length ≤ fuel →
      ((goSplitAux ['-'] fuel s).2 = [] ↔ '-' ∉ s) := by
  intro fuel
  induction fuel with
  | zero =>
    intro s h
    have hs : s = [] := List.eq_nil_of_length_eq_zero (Nat.le_zero.mp h)
    subst hs
    simp [goSplitAux]
  | succ fuel ih =>
    intro s h
    cases s with
    | nil => simp [goSplitAux]
    | cons c rest =>
      by_cases hc : c = '-'
      · subst hc
        have hpre : List.isPrefixOf ['-'] ('-' :: rest) = true := by
          simp [List.isPrefixOf]
        simp [goSplitAux, hpre]
      · have hpre : List.isPrefixOf ['-'] (c :: rest) = false := by
          simp [List.isPrefixOf]
          exact fun habs => hc habs.symm
        have hlen : rest.length ≤ fuel := by
          simp only [List.length_cons] at h
          omega
        simp only [goSplitAux, hpre, Bool.false_eq_true, if_false]
        rw [ih rest hlen]
        simp [List.mem_cons, Ne.symm hc]

/-- C9: the root TreeNode title derivation
`strings.Split(evidence.FileName, "-")[1]` is in bounds exactly when the
file name contains a '-' character; for every file name without one, the
index is past the end of the split result (a panic in the Go source,
`none` in the model), before any TreeNode is saved. -/
theorem c9_root_title_out_of_bounds (fileName : String) :
    (rootTreeNodeTitle fileName).isSome ↔ '-' ∈ fileName.toList := by
  have key := goSplitAux_dash_snd_eq_nil fileName.toList.length fileName.toList
    (Nat.le_refl _)
  unfold rootTreeNodeTitle stringSplit goSplit
  rw [show ("-" : String).toList = ['-'] from rfl]
  cases hsnd : (goSplitAux ['-'] fileName.toList.length fileName.toList).2 with
  | nil =>
    have hnot : '-' ∉ fileName.toList := key.mp hsnd
    simp only [List.map_cons, List.map_nil]
    simp
    simpa using hnot
  | cons seg segs =>
    have hmem : '-' ∈ fileName.toList := by
      by_contra hnot
      rw [key.mpr hnot] at hsnd
      exact List.noConfusion hsnd
    simp only [List.map_cons]
    simp
    simpa using hmem

/-- Witness for C9 at concrete file names: a dashed name is in bounds, a
dash-free name is out of bounds. -/
theorem c9_root_title_out_of_bounds_witness :
    (rootTreeNodeTitle "project-evidence.pst").isSome = true
      ∧ (rootTreeNodeTitle "evidence.pst").isSome = false :=
  ⟨(c9_root_title_out_of_bounds "project-evidence.pst").mpr (by decide),
    by
      have h := (c9_root_title_out_of_bounds "evidence.pst")
      simp only [Bool.eq_false_iff]
      intro habs
      exact (by decide : ¬ '-' ∈ ("evidence.pst" : String).toList) (h.mp (by simpa using habs))⟩

/-- The rendering loop appends `addr ++ ", "` for every element whenever
the running index stays below `total` (which it always does when started
at 0 with `total = length`, since the guard `i != len(addresses)` holds
at every loop index). -/
theorem parseAddressLoop_foldr (total : Nat) :
    ∀ (addresses : List IMAPAddress) (i : Nat) (acc : String),
      i + addresses.length ≤ total →
      parseAddressLoop total i acc addresses
        = acc ++ (addresses.map (fun a => a.address ++ ", ")).foldr (· ++ ·) "" := by
  intro addresses
  induction addresses with
  | nil =>
    intro i acc h
    simp [parseAddressLoop]
  | cons a rest ih =>
    intro i acc h
    have hne : (i != total) = true := by
      simp only [bne_iff_ne, ne_eq]
      simp only [List.length_cons] at h
      omega
    simp only [parseAddressLoop]
    rw [if_pos hne]
    rw [ih (i + 1) (acc ++ a.address ++ ", ")
      (by simp only [List.length_cons] at h ⊢; omega)]
    simp [String.append_assoc]

/-- Folding string concatenation from a non-empty seed factors the seed
out to the right. -/
theorem foldr_append_init (l : List String) (init : String) :
    l.foldr (· ++ ·) init = l.foldr (· ++ ·) "" ++ init := by
  induction l with
  | nil => simp [String.empty_append]
  | cons x xs ih => simp [List.foldr_cons, ih, String.append_assoc]

/-- C10: `parseAddress` appends the separator after every address — its
guard `i != len(addresses)` holds at every loop index — so the result is
the concatenation of `addr ++ ", "` over all addresses: the empty list
renders as the empty string and every non-empty list renders with a
trailing `", "`. -/
theorem c10_parse_address_trailing_separator (addresses : List IMAPAddress) :
    parseAddress addresses
        = (addresses.map (fun a => a.address ++ ", ")).foldr (· ++ ·) ""
      ∧ (addresses = [] → parseAddress addresses = "")
      ∧ (addresses ≠ [] → ∃ s, parseAddress addresses = s ++ ", ") := by
  have hmain : parseAddress addresses
      = (addresses.map (fun a => a.address ++ ", ")).foldr (· ++ ·) "" := by
    have h := parseAddressLoop_foldr addresses.length addresses 0 "" (by omega)
    unfold parseAddress
    rw [h, String.empty_append]
  refine ⟨hmain, fun he => by subst he; rfl, fun hne => ?_⟩
  rcases List.eq_nil_or_concat addresses with he | ⟨L, b, hLb⟩
  · exact absurd he hne
  · subst hLb
    refine ⟨(L.map (fun a => a.address ++ ", ")).foldr (· ++ ·) "" ++ b.address, ?_⟩
    rw [hmain, List.concat_eq_append, List.map_append, List.foldr_append]
    simp only [List.map_cons, List.map_nil, List.foldr_cons, List.foldr_nil]
    rw [foldr_append_init]
    simp [String.append_assoc, String.append_empty]

/-- Witness for C10 at a concrete one-address list and the empty list. -/
theorem c10_parse_address_trailing_separator_witness :
    parseAddress [{ mailboxName := "a", hostName := "b" }] = "a@b, "
      ∧ parseAddress ([] : List IMAPAddress) = ""
      ∧ ∃ s, parseAddress [{ mailboxName := "a", hostName := "b" }] = s ++ ", " :=
  ⟨((c10_parse_address_trailing_separator
        [{ mailboxName := "a", hostName := "b" }]).1).trans (by decide),
    (c10_parse_address_trailing_separator ([] : List IMAPAddress)).2.1 rfl,
    (c10_parse_address_trailing_separator
        [{ mailboxName := "a", hostName := "b" }]).2.2 (by decide)⟩

end GoForensics
